import Mathlib

/-!
Verification of the build-plan pipeline of canonical/operator-workflows.

The TypeScript sources (src/plan.ts, src/build.ts, src/plan-integration.ts,
src/publish.ts, src/utils.ts, src/model.ts) are shallowly embedded below:
filesystem scans become explicit lists of discovered descriptor records,
shell and network effects are threaded as explicit inputs, JavaScript
exceptions become `Except String`, and JavaScript strings are Lean strings
(operations such as startsWith, endsWith, includes and trim are modelled
character-wise).
-/

/-! ## String helpers modelling JavaScript string operations -/

/-- Model of JavaScript's startsWith on character lists: `startsWithChars p l`
is true when `p` is an initial segment of `l`. -/
def startsWithChars : List Char → List Char → Bool
  | [], _ => true
  | _ :: _, [] => false
  | a :: as, b :: bs => a = b && startsWithChars as bs

/-- Model of JavaScript's `s.startsWith(pre)`. -/
def jsStartsWith (s pre : String) : Bool :=
  startsWithChars pre.data s.data

/-- Model of JavaScript's `s.endsWith(suf)`. -/
def jsEndsWith (s suf : String) : Bool :=
  startsWithChars suf.data.reverse s.data.reverse

/-- Model of JavaScript substring containment used by `s.includes(sub)`. -/
def containsSeq : List Char → List Char → Bool
  | sub, [] => startsWithChars sub []
  | sub, c :: cs => startsWithChars sub (c :: cs) || containsSeq sub cs

/-- Model of JavaScript's `s.includes(sub)`. -/
def jsIncludes (s sub : String) : Bool :=
  containsSeq sub.data s.data

/-- Model of JavaScript's `s.trim()`: drop leading and trailing whitespace. -/
def jsTrim (s : String) : String :=
  ⟨(((s.data.dropWhile Char.isWhitespace).reverse.dropWhile
      Char.isWhitespace).reverse)⟩

/-! ## plan.ts / utils.ts: name sanitization -/

/-- Characters matched by the regular expression in `sanitizeArtifactName`
(src/plan.ts line 19): tab, newline, colon, slash, backslash, double quote,
angle brackets, pipe, star, question mark. -/
def badChar (c : Char) : Bool :=
  c = '\t' || c = '\n' || c = ':' || c = '/' || c = '\\' || c = '"' ||
  c = '<' || c = '>' || c = '|' || c = '*' || c = '?'

/-- Replacement performed on a single character by `sanitizeArtifactName`. -/
def sanChar (c : Char) : Char :=
  if badChar c then '-' else c

/-- src/plan.ts lines 18-20: `name.replaceAll(/[\t\n:\/\\"<>|*?]/g, '-')`. -/
def sanitizeArtifactName (name : String) : String :=
  ⟨name.data.map sanChar⟩

theorem sanChar_idem (c : Char) : sanChar (sanChar c) = sanChar c := by
  unfold sanChar
  by_cases h : badChar c = true
  · simp [h]
  · simp [h]

/-! ## Path utilities (posix semantics of node:path, as used by the code) -/

/-- Segment resolution inside node's path.normalize: empty and `.` segments
are dropped; `..` pops a previous real segment, is dropped at the root of an
absolute path, and is kept literally when a relative path has nothing left to
pop. `acc` holds already-resolved segments in reverse order. -/
def normalizeSegs (isAbs : Bool) (acc : List String) : List String → List String
  | [] => acc.reverse
  | seg :: rest =>
    if seg = "" || seg = "." then normalizeSegs isAbs acc rest
    else if seg = ".." then
      match acc with
      | [] =>
        if isAbs then normalizeSegs isAbs [] rest
        else normalizeSegs isAbs [".."] rest
      | top :: below =>
        if top = ".." then normalizeSegs isAbs (".." :: top :: below) rest
        else normalizeSegs isAbs below rest
    else normalizeSegs isAbs (seg :: acc) rest

/-- Split a character list on a separator character; mirrors
`String.split` behaviour on `"/"`, e.g. `""` gives one empty segment. -/
def splitOnSlash : List Char → List (List Char)
  | [] => [[]]
  | x :: xs =>
    if x = '/' then [] :: splitOnSlash xs
    else
      match splitOnSlash xs with
      | s :: rest => (x :: s) :: rest
      | [] => [[x]]

/-- The segments of a path string. -/
def pathSegs (p : String) : List String :=
  (splitOnSlash p.data).map String.mk

/-- Join strings with a separator (model of `Array.prototype.join`). -/
def joinWith (sep : String) : List String → String
  | [] => ""
  | [x] => x
  | x :: xs => x ++ sep ++ joinWith sep xs

/-- Model of node's `path.normalize` for posix paths. -/
def pathNormalize (p : String) : String :=
  if p = "" then "." else
  let isAbs := jsStartsWith p "/"
  let trailing := jsEndsWith p "/"
  let segs := normalizeSegs isAbs [] (pathSegs p)
  let joined := joinWith "/" segs
  if joined = "" then (if isAbs then "/" else if trailing then "./" else ".")
  else (if isAbs then "/" ++ joined else joined) ++ (if trailing then "/" else "")

/-- Helper for the `replace(/\/+$/, '')` idiom: drop every trailing slash. -/
def stripTrailingSlashes (s : String) : String :=
  ⟨(s.data.reverse.dropWhile (fun c => c = '/')).reverse⟩

/-- src/utils.ts lines 283-285 (same code in src/plan.ts lines 14-16):
`path.normalize(p).replace(/\/+$/, '')`. -/
def normalizePath (p : String) : String :=
  stripTrailingSlashes (pathNormalize p)

/-- Model of node's `path.join` restricted to two segments: empty parts are
skipped, the rest joined with a slash and normalized. -/
def pathJoin (a b : String) : String :=
  let joined := joinWith "/" ([a, b].filter (fun s => s ≠ ""))
  if joined = "" then "." else pathNormalize joined

/-- Model of node's `path.basename`. -/
def pathBasename (p : String) : String :=
  let s := stripTrailingSlashes p
  match (pathSegs s).getLast? with
  | some seg => seg
  | none => ""

/-- Model of node's `path.dirname`. -/
def pathDirname (p : String) : String :=
  if p = "" then "." else
  let isAbs := jsStartsWith p "/"
  let s := stripTrailingSlashes p
  let parts := pathSegs s
  if parts.length ≤ 1 then (if isAbs then "/" else ".")
  else
    let d := joinWith "/" parts.dropLast
    if d = "" then (if isAbs then "/" else ".") else d

/-! ## Data model (src/model.ts) -/

/-- The `type` field of a build entry. -/
inductive BuildType
  | charm
  | rock
  | dockerImage
  | file
deriving DecidableEq, Repr

/-- The `output_type` field of a build entry. -/
inductive OutputType
  | file
  | registry
deriving DecidableEq, Repr

/-- src/model.ts: one entry of the generated build plan. -/
structure BuildPlan where
  type : BuildType
  name : String
  source_file : String
  source_directory : String
  build_target : Option String
  output_type : OutputType
  output : String
deriving DecidableEq, Repr

/-- src/model.ts: a serialized plan. -/
structure Plan where
  working_directory : String
  build : List BuildPlan
deriving DecidableEq, Repr

/-- src/model.ts: a resource declaration inside a packaging descriptor. -/
structure CharmResource where
  type : String
  description : Option String
  filename : Option String
deriving DecidableEq, Repr

/-! ## Plan Generator (src/plan.ts) -/

/-- Parsed content of a companion `metadata.yaml` file. -/
structure MetadataFile where
  name : Option String
  resources : Option (List (String × CharmResource))
deriving DecidableEq, Repr

/-- One discovered `charmcraft.yaml` descriptor: its path relative to the
working directory, its parsed fields, and the companion `metadata.yaml`
(`none` when the file does not exist). -/
structure CharmcraftFile where
  relPath : String
  name : Option String
  resources : Option (List (String × CharmResource))
  metadata : Option MetadataFile
deriving DecidableEq, Repr

/-- One discovered `*rockcraft.yaml` descriptor. -/
structure RockcraftFile where
  relPath : String
  name : String
deriving DecidableEq, Repr

/-- The filesystem content seen by the glob scans of `planBuild`: the
discovered packaging descriptors, container descriptors and Dockerfile-like
descriptors, each with a path relative to the working directory. -/
structure WorkingDirFS where
  charmcraft : List CharmcraftFile
  rockcraft : List RockcraftFile
  docker : List String
deriving DecidableEq, Repr

/-- Decidable equality for `Except` results, used to evaluate the model on
concrete inputs. -/
instance {ε α : Type} [DecidableEq ε] [DecidableEq α] :
    DecidableEq (Except ε α) := fun x y =>
  match x, y with
  | .error a, .error b =>
    if h : a = b then isTrue (by rw [h])
    else isFalse (by intro hc; injection hc; contradiction)
  | .error _, .ok _ => isFalse (fun hc => Except.noConfusion hc)
  | .ok _, .error _ => isFalse (fun hc => Except.noConfusion hc)
  | .ok a, .ok b =>
    if h : a = b then isTrue (by rw [h])
    else isFalse (by intro hc; injection hc; contradiction)

/-- Exception-propagating map, modelling `Array.prototype.map` with a
callback that can throw. -/
def exceptMap (g : α → Except ε β) : List α → Except ε (List β)
  | [] => .ok []
  | a :: as =>
    match g a with
    | .error e => .error e
    | .ok b =>
      match exceptMap g as with
      | .error e => .error e
      | .ok bs => .ok (b :: bs)

/-- The `tests/` filter applied to charmcraft descriptors (src/plan.ts lines
40-43 and 140-143). -/
def filteredCharmcraft (files : List CharmcraftFile) : List CharmcraftFile :=
  files.filter (fun f => !(jsStartsWith (pathNormalize f.relPath) "tests/"))

/-- Charm-name resolution of `planBuildCharm` (src/plan.ts lines 52-68): the
`name` of charmcraft.yaml, else the `name` of metadata.yaml, reading which
throws when the file is absent. -/
def planCharmName (workingDir : String) (f : CharmcraftFile) :
    Except String String :=
  match f.name with
  | some n => .ok n
  | none =>
    match f.metadata with
    | none => .error ("ENOENT: no such file metadata.yaml (" ++ workingDir ++ ")")
    | some md =>
      match md.name with
      | some n => .ok n
      | none => .error ("unknown charm name (" ++ workingDir ++ ")")

/-- The entry built for one charmcraft.yaml (src/plan.ts lines 44-78). -/
def charmEntry (workingDir id : String) (f : CharmcraftFile) :
    Except String BuildPlan :=
  match planCharmName workingDir f with
  | .error e => .error e
  | .ok name =>
    let file := pathJoin workingDir f.relPath
    .ok { type := .charm
          name := name
          source_file := file
          source_directory := pathDirname file
          build_target := none
          output_type := .file
          output :=
            sanitizeArtifactName (id ++ "__build__output__charm__" ++ name) }

/-- src/plan.ts lines 33-79: `planBuildCharm`. -/
def planBuildCharm (workingDir id : String) (files : List CharmcraftFile) :
    Except String (List BuildPlan) :=
  exceptMap (charmEntry workingDir id) (filteredCharmcraft files)

/-- The entry built for one rockcraft descriptor (src/plan.ts lines 89-105). -/
def rockEntry (workingDir id : String) (outputType : OutputType)
    (r : RockcraftFile) : BuildPlan :=
  let file := pathJoin workingDir r.relPath
  { type := .rock
    name := r.name
    source_file := file
    source_directory := pathDirname file
    build_target := none
    output_type := outputType
    output := sanitizeArtifactName (id ++ "__build__output__rock__" ++ r.name) }

/-- src/plan.ts lines 81-106: `planBuildRock` (no `tests/` filter here). -/
def planBuildRock (workingDir id : String) (outputType : OutputType)
    (files : List RockcraftFile) : List BuildPlan :=
  files.map (rockEntry workingDir id outputType)

/-- The `.replace(/.Dockerfile$/, '')` of src/plan.ts line 118: the regular
expression matches one arbitrary character followed by `Dockerfile` at the
end, so eleven characters are dropped when the pattern matches. -/
def dockerImageName (b : String) : String :=
  if jsEndsWith b "Dockerfile" && b.data.length ≥ 11 then
    ⟨b.data.take (b.data.length - 11)⟩
  else b

/-- The entry built for one Dockerfile (src/plan.ts lines 116-130). -/
def dockerEntry (workingDir id : String) (outputType : OutputType)
    (relPath : String) : BuildPlan :=
  let file := pathJoin workingDir relPath
  let name := dockerImageName (pathBasename file)
  { type := .dockerImage
    name := name
    source_file := file
    source_directory := pathDirname file
    build_target := none
    output_type := outputType
    output :=
      sanitizeArtifactName (id ++ "__build__output__docker-image__" ++ name) }

/-- src/plan.ts lines 108-131: `planBuildDockerImage` (no `tests/` filter). -/
def planBuildDockerImage (workingDir id : String) (outputType : OutputType)
    (files : List String) : List BuildPlan :=
  files.map (dockerEntry workingDir id outputType)

/-- JavaScript truthiness of an optional string (`resource.filename`). -/
def truthy : Option String → Bool
  | none => false
  | some s => s ≠ ""

/-- The `(local)` skip of src/plan.ts line 184:
`resource.description?.trim().startsWith('(local)')`; a missing description
is not skipped (optional chaining yields undefined, which is falsy). -/
def localDescription : Option String → Bool
  | none => false
  | some s => jsStartsWith (jsTrim s) "(local)"

/-- Resource table used by `planBuildFileResource` (src/plan.ts lines
172-178): the charmcraft resources, overridden by the metadata resources
when that key is present. -/
def resourcesOf (f : CharmcraftFile) : List (String × CharmResource) :=
  let fromCharmcraft := match f.resources with | some r => r | none => []
  match f.metadata with
  | some md => match md.resources with | some r => r | none => fromCharmcraft
  | none => fromCharmcraft

/-- Charm-name resolution of `planBuildFileResource` (src/plan.ts lines
163-170): charmcraft name, else metadata name when the file exists, else an
error. -/
def fileResCharmName (workingDir : String) (f : CharmcraftFile) :
    Except String String :=
  match f.name with
  | some n => .ok n
  | none =>
    match f.metadata with
    | some md =>
      match md.name with
      | some n => .ok n
      | none => .error ("unknown charm name (" ++ workingDir ++ ")")
    | none => .error ("unknown charm name (" ++ workingDir ++ ")")

/-- A resource produces a `file` build entry when its type is `file`, its
filename is truthy, and its description is not a `(local)` marker
(src/plan.ts lines 182-198). -/
def qualifiesFileResource (r : CharmResource) : Bool :=
  r.type = "file" && truthy r.filename && !localDescription r.description

/-- The build entry pushed for one qualifying file resource (src/plan.ts
lines 187-197). -/
def fileResourceEntry (workingDir id charmName : String) (f : CharmcraftFile)
    (resourceName : String) (r : CharmResource) : BuildPlan :=
  { type := .file
    name := resourceName
    source_file := "build-" ++ resourceName ++ ".sh"
    source_directory := pathDirname (pathJoin workingDir f.relPath)
    build_target := r.filename
    output_type := .file
    output := sanitizeArtifactName
      (id ++ "__build__output__file__" ++ charmName ++ "__" ++ resourceName) }

/-- The entries contributed by one charmcraft descriptor in
`planBuildFileResource` (src/plan.ts lines 144-203): resolve the charm name,
then keep one entry per qualifying declared resource. -/
def fileResourcePlansFor (workingDir id : String) (f : CharmcraftFile) :
    Except String (List BuildPlan) :=
  match fileResCharmName workingDir f with
  | .error e => .error e
  | .ok charmName =>
    .ok ((resourcesOf f).filterMap (fun p =>
      if qualifiesFileResource p.2 then
        some (fileResourceEntry workingDir id charmName f p.1 p.2)
      else none))

/-- src/plan.ts lines 133-204: `planBuildFileResource`. -/
def planBuildFileResource (workingDir id : String)
    (files : List CharmcraftFile) : Except String (List BuildPlan) :=
  match exceptMap (fileResourcePlansFor workingDir id)
      (filteredCharmcraft files) with
  | .error e => .error e
  | .ok parts => .ok parts.flatten

/-- src/plan.ts lines 206-217: `planBuild` concatenates the charm, rock,
docker-image and file-resource entries, in that order. -/
def planBuild (wd : WorkingDirFS) (workingDir id : String)
    (imageOutputType : OutputType) : Except String (List BuildPlan) :=
  match planBuildCharm workingDir id wd.charmcraft with
  | .error e => .error e
  | .ok charms =>
    match planBuildFileResource workingDir id wd.charmcraft with
    | .error e => .error e
    | .ok fileResources =>
      .ok (charms
        ++ planBuildRock workingDir id imageOutputType wd.rockcraft
        ++ planBuildDockerImage workingDir id imageOutputType wd.docker
        ++ fileResources)

/-- src/plan.ts lines 219-263: the pure part of the plan action `run`. The
generated timestamp-and-uuid identifier is `baseId`; inputs `identifier`,
`working-directory`, `upload-image` and the fork check are passed in, and
`setFailed` is modelled as an error result. -/
def imageOutputTypeOf (uploadImage : String) (isFork : Bool) :
    Except String OutputType :=
  if uploadImage = "" then .ok (if isFork then .file else .registry)
  else if uploadImage = "artifact" then .ok .file
  else if uploadImage = "registry" then .ok .registry
  else .error ("unknown upload-image input: " ++ uploadImage)

def planRun (baseId identity workingDirInput uploadImage : String)
    (isFork : Bool) (wd : WorkingDirFS) : Except String (String × Plan) :=
  if jsIncludes identity "__" then
    .error "identifier can not contain \"__\""
  else
    let id := if identity ≠ "" then baseId ++ "__" ++ identity else baseId
    let workingDir := normalizePath workingDirInput
    match imageOutputTypeOf uploadImage isFork with
    | .error e => .error e
    | .ok ot =>
      match planBuild wd workingDir id ot with
      | .error e => .error e
      | .ok builds => .ok (id, { working_directory := workingDir, build := builds })

/-! ## Support lemmas: strings, sanitized outputs, exception-mapping -/

theorem string_append_right_inj {a b c : String} (h : a ++ b = a ++ c) :
    b = c := by
  have h2 : a.data ++ b.data = a.data ++ c.data := congrArg String.data h
  exact congrArg String.mk (List.append_cancel_left h2)

theorem sanitize_append (a b : String) :
    sanitizeArtifactName (a ++ b) =
      sanitizeArtifactName a ++ sanitizeArtifactName b := by
  apply String.ext
  show (a.data ++ b.data).map sanChar = a.data.map sanChar ++ b.data.map sanChar
  exact List.map_append sanChar a.data b.data

/-- Common shape of every sanitized output name produced by the Plan
Generator: the sanitized run identifier, the fixed infix, a build-type tag
and a sanitized name component. -/
def outWrap (id tag k : String) : String :=
  sanitizeArtifactName id ++ "__build__output__" ++ tag ++ k

theorem outWrap_inj (id tag : String) : Function.Injective (outWrap id tag) := by
  intro k1 k2 h
  unfold outWrap at h
  exact string_append_right_inj h

theorem tag_append_ne {t1 t2 : String} {c d : Char} {r1 r2 : List Char}
    (h1 : t1.data = c :: r1) (h2 : t2.data = d :: r2) (hne : c ≠ d) :
    ∀ k1 k2 : String, t1 ++ k1 ≠ t2 ++ k2 := by
  intro k1 k2 h
  have h4 : t1.data ++ k1.data = t2.data ++ k2.data := congrArg String.data h
  rw [h1, h2] at h4
  simp only [List.cons_append] at h4
  exact hne (by injection h4)

theorem outWrap_tag_ne (id : String) {t1 t2 : String} {c d : Char}
    {r1 r2 : List Char}
    (h1 : t1.data = c :: r1) (h2 : t2.data = d :: r2) (hne : c ≠ d)
    (k1 k2 : String) : outWrap id t1 k1 ≠ outWrap id t2 k2 := by
  intro h
  unfold outWrap at h
  simp only [String.append_assoc] at h
  exact tag_append_ne h1 h2 hne k1 k2
    (string_append_right_inj (string_append_right_inj h))

theorem disjoint_outWrap_maps {id t1 t2 : String}
    (hne : ∀ k1 k2, outWrap id t1 k1 ≠ outWrap id t2 k2)
    (K1 K2 : List String) :
    (K1.map (outWrap id t1)).Disjoint (K2.map (outWrap id t2)) := by
  intro x hx hy
  obtain ⟨k1, -, rfl⟩ := List.mem_map.mp hx
  obtain ⟨k2, -, he⟩ := List.mem_map.mp hy
  exact hne k1 k2 he.symm

theorem charm_output_eq (id n : String) :
    sanitizeArtifactName (id ++ "__build__output__charm__" ++ n) =
      outWrap id "charm__" (sanitizeArtifactName n) := by
  apply String.ext
  show ((id.data ++ "__build__output__charm__".data) ++ n.data).map sanChar =
    ((id.data.map sanChar ++ "__build__output__".data) ++ "charm__".data)
      ++ n.data.map sanChar
  simp [List.map_append, List.append_assoc]
  decide

theorem rock_output_eq (id n : String) :
    sanitizeArtifactName (id ++ "__build__output__rock__" ++ n) =
      outWrap id "rock__" (sanitizeArtifactName n) := by
  apply String.ext
  show ((id.data ++ "__build__output__rock__".data) ++ n.data).map sanChar =
    ((id.data.map sanChar ++ "__build__output__".data) ++ "rock__".data)
      ++ n.data.map sanChar
  simp [List.map_append, List.append_assoc]
  decide

theorem docker_output_eq (id n : String) :
    sanitizeArtifactName (id ++ "__build__output__docker-image__" ++ n) =
      outWrap id "docker-image__" (sanitizeArtifactName n) := by
  apply String.ext
  show ((id.data ++ "__build__output__docker-image__".data) ++ n.data).map
      sanChar =
    ((id.data.map sanChar ++ "__build__output__".data)
      ++ "docker-image__".data) ++ n.data.map sanChar
  simp [List.map_append, List.append_assoc]
  decide

theorem file_output_eq (id cn rn : String) :
    sanitizeArtifactName
        (id ++ "__build__output__file__" ++ cn ++ "__" ++ rn) =
      outWrap id "file__" (sanitizeArtifactName (cn ++ "__" ++ rn)) := by
  apply String.ext
  show ((((id.data ++ "__build__output__file__".data) ++ cn.data)
      ++ "__".data) ++ rn.data).map sanChar =
    ((id.data.map sanChar ++ "__build__output__".data) ++ "file__".data)
      ++ ((cn.data ++ "__".data) ++ rn.data).map sanChar
  simp [List.map_append, List.append_assoc]
  decide

theorem exceptMap_ok_forall₂ {α β ε : Type} {g : α → Except ε β} :
    ∀ {l : List α} {bs : List β}, exceptMap g l = .ok bs →
      List.Forall₂ (fun a b => g a = .ok b) l bs := by
  intro l
  induction l with
  | nil =>
    intro bs h
    unfold exceptMap at h
    injection h with h
    subst h
    exact List.Forall₂.nil
  | cons a as ih =>
    intro bs h
    cases hga : g a with
    | error e => simp [exceptMap, hga] at h
    | ok b =>
      cases hm : exceptMap g as with
      | error e => simp [exceptMap, hga, hm] at h
      | ok bs2 =>
        simp only [exceptMap, hga, hm, Except.ok.injEq] at h
        subst h
        exact List.Forall₂.cons hga (ih hm)

theorem length_filterMap_ite {α β : Type} (g : α → β) (p : α → Bool)
    (l : List α) :
    (l.filterMap (fun a => if p a then some (g a) else none)).length =
      l.countP p := by
  induction l with
  | nil => rfl
  | cons a as ih =>
    by_cases h : p a <;>
      simp [List.filterMap_cons, List.countP_cons, h, ih]

/-! ## C1: number and distinctness of generated build entries -/

/-- The charm name `planBuildCharm` resolves, with a default for the error
case (only used where resolution is known to succeed). -/
def charmNameD (workingDir : String) (f : CharmcraftFile) : String :=
  match planCharmName workingDir f with
  | .ok n => n
  | .error _ => ""

/-- The charm name `planBuildFileResource` resolves, with a default for the
error case. -/
def fileCharmNameD (workingDir : String) (f : CharmcraftFile) : String :=
  match fileResCharmName workingDir f with
  | .ok n => n
  | .error _ => ""

/-- Sanitized name components of the charm entries of a plan. -/
def charmKeys (workingDir : String) (files : List CharmcraftFile) :
    List String :=
  (filteredCharmcraft files).map
    (fun f => sanitizeArtifactName (charmNameD workingDir f))

/-- Sanitized name components of the rock entries of a plan. -/
def rockKeys (files : List RockcraftFile) : List String :=
  files.map (fun r => sanitizeArtifactName r.name)

/-- Sanitized name components of the docker-image entries of a plan. -/
def dockerKeys (workingDir : String) (files : List String) : List String :=
  files.map (fun p =>
    sanitizeArtifactName (dockerImageName (pathBasename (pathJoin workingDir p))))

/-- Sanitized charm-and-resource name components of the file entries one
charmcraft descriptor contributes. -/
def fileKeysFor (workingDir : String) (f : CharmcraftFile) : List String :=
  (resourcesOf f).filterMap (fun p =>
    if qualifiesFileResource p.2 then
      some (sanitizeArtifactName (fileCharmNameD workingDir f ++ "__" ++ p.1))
    else none)

/-- Sanitized name components of all file entries of a plan. -/
def fileKeys (workingDir : String) (files : List CharmcraftFile) :
    List String :=
  ((filteredCharmcraft files).map (fileKeysFor workingDir)).flatten

/-- Number of file-resource build entries the Plan Generator emits: one per
declared resource of type `file` with a truthy filename and no `(local)`
description marker, over the descriptors not under `tests/`. -/
def fileResourceCount (files : List CharmcraftFile) : Nat :=
  ((filteredCharmcraft files).map
    (fun f => (resourcesOf f).countP (fun p => qualifiesFileResource p.2))).sum

theorem forall₂_map_eq {α β γ : Type} {P : α → β → Prop} {F : α → γ}
    {G : β → γ} (hFG : ∀ a b, P a b → G b = F a) :
    ∀ {l : List α} {bs : List β}, List.Forall₂ P l bs →
      bs.map G = l.map F := by
  intro l bs h
  induction h with
  | nil => rfl
  | cons hab _ ih =>
    simp only [List.map_cons, ih, List.cons.injEq, and_true]
    exact hFG _ _ hab

theorem charmEntry_ok_output {workingDir id : String} {f : CharmcraftFile}
    {b : BuildPlan} (h : charmEntry workingDir id f = .ok b) :
    b.output =
      outWrap id "charm__" (sanitizeArtifactName (charmNameD workingDir f)) := by
  cases hn : planCharmName workingDir f with
  | error e => simp [charmEntry, hn] at h
  | ok n =>
    simp only [charmEntry, hn, Except.ok.injEq] at h
    subst h
    show sanitizeArtifactName (id ++ "__build__output__charm__" ++ n) = _
    rw [charm_output_eq]
    have hc : charmNameD workingDir f = n := by simp [charmNameD, hn]
    rw [hc]

theorem planBuildCharm_ok {workingDir id : String}
    {files : List CharmcraftFile} {a : List BuildPlan}
    (h : planBuildCharm workingDir id files = .ok a) :
    a.map (fun e => e.output) =
        (charmKeys workingDir files).map (outWrap id "charm__")
      ∧ a.length = (filteredCharmcraft files).length := by
  have hf := exceptMap_ok_forall₂ h
  constructor
  · unfold charmKeys
    rw [List.map_map]
    exact forall₂_map_eq (fun f b hb => charmEntry_ok_output hb) hf
  · exact hf.length_eq.symm

theorem fileResourcePlansFor_ok {workingDir id : String} {f : CharmcraftFile}
    {entries : List BuildPlan}
    (h : fileResourcePlansFor workingDir id f = .ok entries) :
    entries.map (fun e => e.output) =
        (fileKeysFor workingDir f).map (outWrap id "file__")
      ∧ entries.length =
        (resourcesOf f).countP (fun p => qualifiesFileResource p.2) := by
  cases hn : fileResCharmName workingDir f with
  | error e => simp [fileResourcePlansFor, hn] at h
  | ok cn =>
    simp only [fileResourcePlansFor, hn, Except.ok.injEq] at h
    subst h
    have hd : fileCharmNameD workingDir f = cn := by simp [fileCharmNameD, hn]
    constructor
    · unfold fileKeysFor
      rw [List.map_filterMap, List.map_filterMap, hd]
      apply List.filterMap_congr
      intro p _
      by_cases hq : qualifiesFileResource p.2 = true
      · rw [if_pos hq, if_pos hq]
        show some (fileResourceEntry workingDir id cn f p.1 p.2).output = _
        exact congrArg some (file_output_eq id cn p.1)
      · rw [if_neg hq, if_neg hq]
        rfl
    · exact length_filterMap_ite _ _ _

theorem planBuildFileResource_ok {workingDir id : String}
    {files : List CharmcraftFile} {d : List BuildPlan}
    (h : planBuildFileResource workingDir id files = .ok d) :
    d.map (fun e => e.output) =
        (fileKeys workingDir files).map (outWrap id "file__")
      ∧ d.length = fileResourceCount files := by
  cases hm : exceptMap (fileResourcePlansFor workingDir id)
      (filteredCharmcraft files) with
  | error e => simp [planBuildFileResource, hm] at h
  | ok parts =>
    simp only [planBuildFileResource, hm, Except.ok.injEq] at h
    subst h
    have hf := exceptMap_ok_forall₂ hm
    have houts : parts.map (List.map (fun e => e.output)) =
        (filteredCharmcraft files).map
          (fun f => (fileKeysFor workingDir f).map (outWrap id "file__")) :=
      forall₂_map_eq
        (F := fun f => (fileKeysFor workingDir f).map (outWrap id "file__"))
        (G := List.map (fun e => e.output))
        (fun f part hp => (fileResourcePlansFor_ok hp).1) hf
    have hlens : parts.map List.length =
        (filteredCharmcraft files).map
          (fun f => (resourcesOf f).countP (fun p => qualifiesFileResource p.2)) :=
      forall₂_map_eq
        (F := fun f => (resourcesOf f).countP (fun p => qualifiesFileResource p.2))
        (G := List.length)
        (fun f part hp => (fileResourcePlansFor_ok hp).2) hf
    constructor
    · rw [List.map_flatten, houts]
      unfold fileKeys
      rw [List.map_flatten, List.map_map]
      rfl
    · rw [List.length_flatten, hlens]
      rfl

theorem planBuildRock_outputs (workingDir id : String) (ot : OutputType)
    (files : List RockcraftFile) :
    (planBuildRock workingDir id ot files).map (fun e => e.output) =
      (rockKeys files).map (outWrap id "rock__") := by
  unfold planBuildRock rockKeys
  rw [List.map_map, List.map_map]
  apply List.map_congr_left
  intro r _
  show (rockEntry workingDir id ot r).output = _
  exact rock_output_eq id r.name

theorem planBuildDockerImage_outputs (workingDir id : String)
    (ot : OutputType) (files : List String) :
    (planBuildDockerImage workingDir id ot files).map (fun e => e.output) =
      (dockerKeys workingDir files).map (outWrap id "docker-image__") := by
  unfold planBuildDockerImage dockerKeys
  rw [List.map_map, List.map_map]
  apply List.map_congr_left
  intro p _
  show (dockerEntry workingDir id ot p).output = _
  exact docker_output_eq id (dockerImageName (pathBasename (pathJoin workingDir p)))

theorem planBuild_ok_pieces {wd : WorkingDirFS} {workingDir id : String}
    {ot : OutputType} {l : List BuildPlan}
    (h : planBuild wd workingDir id ot = .ok l) :
    ∃ a d, planBuildCharm workingDir id wd.charmcraft = .ok a
      ∧ planBuildFileResource workingDir id wd.charmcraft = .ok d
      ∧ l = a ++ planBuildRock workingDir id ot wd.rockcraft
          ++ planBuildDockerImage workingDir id ot wd.docker ++ d := by
  unfold planBuild at h
  cases hc : planBuildCharm workingDir id wd.charmcraft with
  | error e => rw [hc] at h; simp at h
  | ok a =>
    rw [hc] at h
    cases hd : planBuildFileResource workingDir id wd.charmcraft with
    | error e => rw [hd] at h; simp at h
    | ok d =>
      rw [hd] at h
      simp only [Except.ok.injEq] at h
      exact ⟨a, d, rfl, rfl, h.symm⟩

theorem planBuild_ok_outputs {wd : WorkingDirFS} {workingDir id : String}
    {ot : OutputType} {l : List BuildPlan}
    (h : planBuild wd workingDir id ot = .ok l) :
    l.map (fun e => e.output) =
      (charmKeys workingDir wd.charmcraft).map (outWrap id "charm__")
      ++ (rockKeys wd.rockcraft).map (outWrap id "rock__")
      ++ (dockerKeys workingDir wd.docker).map (outWrap id "docker-image__")
      ++ (fileKeys workingDir wd.charmcraft).map (outWrap id "file__") := by
  obtain ⟨a, d, hc, hd, rfl⟩ := planBuild_ok_pieces h
  simp only [List.map_append]
  rw [(planBuildCharm_ok hc).1, (planBuildFileResource_ok hd).1,
    planBuildRock_outputs, planBuildDockerImage_outputs]

theorem fileKeys_length (workingDir : String) (files : List CharmcraftFile) :
    (fileKeys workingDir files).length = fileResourceCount files := by
  unfold fileKeys fileResourceCount
  rw [List.length_flatten, List.map_map]
  congr 1
  apply List.map_congr_left
  intro f _
  exact length_filterMap_ite _ _ _

/-- C1 counterexample. First input: a working directory with exactly one
packaging descriptor (N = 1, M = 0, K = 0, not under `tests/`) declaring one
buildable file resource; `planBuild` returns 2 entries, not N+M+K = 1.
Second input: two Dockerfiles with the same basename in different
subdirectories (N = 0, M = 0, K = 2); the two sanitized `output` names
coincide, so they are not pairwise distinct. -/
theorem C1_planBuild_counterexample :
    ((planBuild
        { charmcraft := [{ relPath := "charmcraft.yaml"
                           name := some "foo"
                           resources := some [("data",
                             { type := "file", description := none,
                               filename := some "data.bin" })]
                           metadata := none }]
          rockcraft := []
          docker := [] } "." "id" OutputType.file).map List.length =
      Except.ok 2)
    ∧ ((planBuild
        { charmcraft := []
          rockcraft := []
          docker := ["a/foo.Dockerfile", "b/foo.Dockerfile"] } "." "id"
          OutputType.file).map (fun l => l.map (fun e => e.output)) =
      Except.ok ["id__build__output__docker-image__foo",
                 "id__build__output__docker-image__foo"]) := by
  constructor
  · decide
  · decide

/-- C1 (amended): for a working directory containing N packaging descriptors,
M container descriptors and K Dockerfile-like descriptors, none under
`tests/`, a successful `planBuild` returns exactly N+M+K+F build entries,
where F counts the declared file-type resources with a truthy filename and
no `(local)` description marker; and the sanitized `output` names are
pairwise distinct provided the sanitized per-type name components are
pairwise distinct within each build type. -/
theorem C1_planBuild_entries (wd : WorkingDirFS) (workingDir id : String)
    (ot : OutputType) (l : List BuildPlan)
    (hTests : ∀ f ∈ wd.charmcraft,
      jsStartsWith (pathNormalize f.relPath) "tests/" = false)
    (hok : planBuild wd workingDir id ot = .ok l) :
    l.length = wd.charmcraft.length + wd.rockcraft.length + wd.docker.length
        + fileResourceCount wd.charmcraft
    ∧ ((charmKeys workingDir wd.charmcraft).Nodup →
       (rockKeys wd.rockcraft).Nodup →
       (dockerKeys workingDir wd.docker).Nodup →
       (fileKeys workingDir wd.charmcraft).Nodup →
       (l.map (fun e => e.output)).Nodup) := by
  have hfilter : filteredCharmcraft wd.charmcraft = wd.charmcraft := by
    unfold filteredCharmcraft
    apply List.filter_eq_self.mpr
    intro f hf
    rw [hTests f hf]
    rfl
  have hout := planBuild_ok_outputs hok
  constructor
  · have h1 := congrArg List.length hout
    rw [List.length_map] at h1
    rw [h1]
    simp only [List.length_append, List.length_map]
    rw [fileKeys_length]
    unfold charmKeys rockKeys dockerKeys
    simp only [List.length_map]
    rw [hfilter]
  · intro hkC hkR hkD hkF
    rw [hout]
    have hA := hkC.map (outWrap_inj id "charm__")
    have hB := hkR.map (outWrap_inj id "rock__")
    have hC := hkD.map (outWrap_inj id "docker-image__")
    have hD := hkF.map (outWrap_inj id "file__")
    have hch : ("charm__" : String).data = 'c' :: "harm__".data := rfl
    have hro : ("rock__" : String).data = 'r' :: "ock__".data := rfl
    have hdo : ("docker-image__" : String).data = 'd' :: "ocker-image__".data := rfl
    have hfi : ("file__" : String).data = 'f' :: "ile__".data := rfl
    have dCR := disjoint_outWrap_maps (outWrap_tag_ne id hch hro (by decide))
      (charmKeys workingDir wd.charmcraft) (rockKeys wd.rockcraft)
    have dCD := disjoint_outWrap_maps (outWrap_tag_ne id hch hdo (by decide))
      (charmKeys workingDir wd.charmcraft) (dockerKeys workingDir wd.docker)
    have dCF := disjoint_outWrap_maps (outWrap_tag_ne id hch hfi (by decide))
      (charmKeys workingDir wd.charmcraft) (fileKeys workingDir wd.charmcraft)
    have dRD := disjoint_outWrap_maps (outWrap_tag_ne id hro hdo (by decide))
      (rockKeys wd.rockcraft) (dockerKeys workingDir wd.docker)
    have dRF := disjoint_outWrap_maps (outWrap_tag_ne id hro hfi (by decide))
      (rockKeys wd.rockcraft) (fileKeys workingDir wd.charmcraft)
    have dDF := disjoint_outWrap_maps (outWrap_tag_ne id hdo hfi (by decide))
      (dockerKeys workingDir wd.docker) (fileKeys workingDir wd.charmcraft)
    exact ((hA.append hB dCR).append hC
        (List.disjoint_append_left.mpr ⟨dCD, dRD⟩)).append hD
      (List.disjoint_append_left.mpr
        ⟨List.disjoint_append_left.mpr ⟨dCF, dRF⟩, dDF⟩)

/-- Fixture directory for the C1 witness: one charm, one rock, one
Dockerfile, no file resources. -/
def planFixtureDir : WorkingDirFS :=
  { charmcraft := [{ relPath := "charmcraft.yaml", name := some "foo",
                     resources := none, metadata := none }]
    rockcraft := [{ relPath := "rockcraft.yaml", name := "bar" }]
    docker := ["baz.Dockerfile"] }

/-- Entries `planBuild` produces on `planFixtureDir`. -/
def planFixtureEntries : List BuildPlan :=
  [{ type := .charm, name := "foo", source_file := "charmcraft.yaml",
     source_directory := ".", build_target := none, output_type := .file,
     output := "id__build__output__charm__foo" },
   { type := .rock, name := "bar", source_file := "rockcraft.yaml",
     source_directory := ".", build_target := none, output_type := .registry,
     output := "id__build__output__rock__bar" },
   { type := .dockerImage, name := "baz", source_file := "baz.Dockerfile",
     source_directory := ".", build_target := none, output_type := .registry,
     output := "id__build__output__docker-image__baz" }]

theorem C1_planBuild_entries_witness :
    (planFixtureEntries.length =
      planFixtureDir.charmcraft.length + planFixtureDir.rockcraft.length
        + planFixtureDir.docker.length
        + fileResourceCount planFixtureDir.charmcraft)
    ∧ (planFixtureEntries.map (fun e => e.output)).Nodup :=
  ⟨(C1_planBuild_entries planFixtureDir "." "id" OutputType.registry
      planFixtureEntries (by decide) (by decide)).1,
   (C1_planBuild_entries planFixtureDir "." "id" OutputType.registry
      planFixtureEntries (by decide) (by decide)).2
     (by decide) (by decide) (by decide) (by decide)⟩

/-- C6: the artifact-name sanitization function is idempotent: for every
string `s`, `sanitizeArtifactName (sanitizeArtifactName s) =
sanitizeArtifactName s`. -/
theorem C6_sanitize_idempotent (s : String) :
    sanitizeArtifactName (sanitizeArtifactName s) = sanitizeArtifactName s := by
  show (⟨(s.data.map sanChar).map sanChar⟩ : String) = ⟨s.data.map sanChar⟩
  apply congrArg
  rw [List.map_map]
  exact List.map_congr_left fun c _ => sanChar_idem c

/-! ## C8: file-resource entries of the Plan Generator -/

/-- C8: for a packaging descriptor declaring exactly one file-type resource
named `data` with filename `data.bin`, the Plan Generator emits one build
entry of type `file` with name `data` and build_target `data.bin` when the
(trimmed) description does not start with the `(local)` marker, and no entry
when it does. -/
theorem C8_file_resource_entry (workingDir id : String) (f : CharmcraftFile)
    (d : Option String) (cn : String)
    (hname : fileResCharmName workingDir f = .ok cn)
    (hres : resourcesOf f =
      [("data", { type := "file", description := d,
                  filename := some "data.bin" })]) :
    (localDescription d = false →
      ∃ e, fileResourcePlansFor workingDir id f = .ok [e]
        ∧ e.type = .file ∧ e.name = "data" ∧ e.build_target = some "data.bin")
    ∧ (localDescription d = true →
      fileResourcePlansFor workingDir id f = .ok []) := by
  constructor
  · intro hl
    refine ⟨fileResourceEntry workingDir id cn f "data"
      { type := "file", description := d, filename := some "data.bin" },
      ?_, rfl, rfl, rfl⟩
    unfold fileResourcePlansFor
    rw [hname, hres]
    have hq : qualifiesFileResource
        { type := "file", description := d, filename := some "data.bin" } = true := by
      simp [qualifiesFileResource, truthy, hl]
    simp [List.filterMap, hq]
  · intro hl
    unfold fileResourcePlansFor
    rw [hname, hres]
    have hq : qualifiesFileResource
        { type := "file", description := d, filename := some "data.bin" } = false := by
      simp [qualifiesFileResource, truthy, hl]
    simp [List.filterMap, hq]

theorem C8_file_resource_entry_witness :
    ∃ e, fileResourcePlansFor "." "id"
        { relPath := "charmcraft.yaml", name := some "foo",
          resources := some [("data",
            { type := "file", description := some "demo",
              filename := some "data.bin" })],
          metadata := none } = .ok [e]
      ∧ e.type = .file ∧ e.name = "data" ∧ e.build_target = some "data.bin" :=
  (C8_file_resource_entry "." "id"
    { relPath := "charmcraft.yaml", name := some "foo",
      resources := some [("data",
        { type := "file", description := some "demo",
          filename := some "data.bin" })],
      metadata := none }
    (some "demo") "foo" (by decide) rfl).1 (by decide)

/-! ## C9: identifier validation of the plan action -/

/-- C9 counterexample: with an empty identifier (which does not contain
`__`), the run succeeds and the generated id is the base id alone, not the
base id with the identifier appended after a `__` separator. -/
theorem C9_plan_run_counterexample :
    planRun "base" "" "." "artifact" false
        { charmcraft := [], rockcraft := [], docker := [] } =
      Except.ok ("base", { working_directory := ".", build := [] })
    ∧ ("base" : String) ≠ "base" ++ "__" ++ "" := by
  constructor
  · decide
  · decide

theorem planBuild_match_ok_fst {pb : Except String (List BuildPlan)}
    {idv wdv : String} {p : String × Plan}
    (h : (match pb with
          | .error e => .error e
          | .ok builds =>
            .ok (idv, { working_directory := wdv, build := builds })) =
      Except.ok p) : p.1 = idv := by
  cases pb with
  | error e => exact Except.noConfusion h
  | ok b =>
    injection h with h2
    rw [← h2]

/-- C9 (amended): an identifier containing `__` makes the plan action fail
with a fixed message whatever the working directory contains (so before any
plan is generated or uploaded); for a nonempty identifier without `__`, any
successful run uses the base id with the identifier appended after a `__`
separator; an empty identifier leaves the run id equal to the base id. -/
theorem C9_plan_run_identifier (baseId identity workingDirInput
    uploadImage : String) (isFork : Bool) (wd : WorkingDirFS) :
    (jsIncludes identity "__" = true →
      planRun baseId identity workingDirInput uploadImage isFork wd =
        Except.error "identifier can not contain \"__\"")
    ∧ (jsIncludes identity "__" = false → identity ≠ "" →
      ∀ p : String × Plan,
        planRun baseId identity workingDirInput uploadImage isFork wd =
          Except.ok p →
        p.1 = baseId ++ "__" ++ identity) := by
  constructor
  · intro h
    unfold planRun
    rw [if_pos h]
  · intro h hne p hok
    unfold planRun at hok
    rw [if_neg (by simp [h]), if_pos hne] at hok
    dsimp only [] at hok
    cases hot : imageOutputTypeOf uploadImage isFork with
    | error e =>
      rw [hot] at hok
      exact Except.noConfusion hok
    | ok ot =>
      rw [hot] at hok
      exact planBuild_match_ok_fst hok

theorem C9_plan_run_identifier_witness :
    planRun "base" "a__b" "." "artifact" false
        { charmcraft := [], rockcraft := [], docker := [] } =
      Except.error "identifier can not contain \"__\""
    ∧ (("base__x" : String),
        ({ working_directory := ".", build := [] } : Plan)).1 =
      "base" ++ "__" ++ "x" :=
  ⟨(C9_plan_run_identifier "base" "a__b" "." "artifact" false
      { charmcraft := [], rockcraft := [], docker := [] }).1 (by decide),
   (C9_plan_run_identifier "base" "x" "." "artifact" false
      { charmcraft := [], rockcraft := [], docker := [] }).2 (by decide)
     (by decide) ("base__x", { working_directory := ".", build := [] })
     (by decide)⟩

/-! ## Plan Resolver (src/plan-integration.ts) -/

/-- One workflow run as returned by the runs listing: its numeric id and the
tree id of its head commit (`none` when the head commit is absent). -/
structure WorkflowRun where
  id : Nat
  tree_id : Option String
deriving DecidableEq, Repr

/-- src/plan-integration.ts lines 153-203: `findWorkflowRunId`. A non-empty
`workflow-run-id` input is parsed and returned directly; otherwise the runs
visible in the lookback window are scanned in order and the first whose head
commit tree id equals the current tree id is returned; an error is thrown
when none matches. -/
def findWorkflowRunId (workflowRunIdInput : String) (currentTree : String)
    (runs : List WorkflowRun) : Except String Nat :=
  if workflowRunIdInput ≠ "" then
    .ok ((workflowRunIdInput.toNat?).getD 0)
  else
    match runs.find? (fun r => r.tree_id = some currentTree) with
    | some r => .ok r.id
    | none =>
      .error ("Failed to find integration test workflow run on tree id ("
        ++ currentTree ++ ")")

theorem find?_eq_head_filter {α : Type} (p : α → Bool) :
    ∀ l : List α, l.find? p = (l.filter p).head? := by
  intro l
  induction l with
  | nil => rfl
  | cons a as ih =>
    by_cases h : p a
    · rw [List.find?_cons_of_pos _ h, List.filter_cons_of_pos h]
      rfl
    · rw [List.find?_cons_of_neg _ h, List.filter_cons_of_neg h]
      exact ih

/-- C3: with no explicit run id, when exactly one visible workflow run's head
commit tree id equals the current tree id, resolution returns that run's id;
when no run matches, resolution throws. -/
theorem C3_find_workflow_run (currentTree : String) (runs : List WorkflowRun) :
    (∀ r, runs.filter (fun x => x.tree_id = some currentTree) = [r] →
      findWorkflowRunId "" currentTree runs = .ok r.id)
    ∧ (runs.filter (fun x => x.tree_id = some currentTree) = [] →
      ∃ msg, findWorkflowRunId "" currentTree runs = .error msg) := by
  constructor
  · intro r hr
    unfold findWorkflowRunId
    rw [if_neg (by simp), find?_eq_head_filter, hr]
    rfl
  · intro h0
    refine ⟨"Failed to find integration test workflow run on tree id ("
      ++ currentTree ++ ")", ?_⟩
    unfold findWorkflowRunId
    rw [if_neg (by simp), find?_eq_head_filter, h0]
    rfl

theorem C3_find_workflow_run_witness :
    findWorkflowRunId "" "t2"
        [⟨1, some "t1"⟩, ⟨2, some "t2"⟩, ⟨3, none⟩] = .ok 2
    ∧ ∃ msg, findWorkflowRunId "" "zzz"
        [⟨1, some "t1"⟩, ⟨2, some "t2"⟩, ⟨3, none⟩] = .error msg :=
  ⟨(C3_find_workflow_run "t2" [⟨1, some "t1"⟩, ⟨2, some "t2"⟩, ⟨3, none⟩]).1
      ⟨2, some "t2"⟩ (by decide),
   (C3_find_workflow_run "zzz" [⟨1, some "t1"⟩, ⟨2, some "t2"⟩, ⟨3, none⟩]).2
      (by decide)⟩

/-! ## getPlan: artifact filtering, ordering and acceptance -/

/-- Model of the JavaScript string comparison `a < b` (lexicographic on
UTF-16 code units; on the scalar values here, codepoint order). -/
def ltChars : List Char → List Char → Bool
  | [], [] => false
  | [], _ :: _ => true
  | _ :: _, [] => false
  | a :: as, b :: bs =>
    if a < b then true else if b < a then false else ltChars as bs

/-- JavaScript `a < b` on strings. -/
def jsLtString (a b : String) : Bool :=
  ltChars a.data b.data

theorem ltChars_irrefl : ∀ l, ltChars l l = false := by
  intro l
  induction l with
  | nil => rfl
  | cons a as ih =>
    simp only [ltChars, if_neg (lt_irrefl a)]
    exact ih

theorem ltChars_asymm : ∀ a b, ltChars a b = true → ltChars b a = false := by
  intro a
  induction a with
  | nil =>
    intro b h
    cases b with
    | nil => simp [ltChars] at h
    | cons y ys => rfl
  | cons x xs ih =>
    intro b h
    cases b with
    | nil => simp [ltChars] at h
    | cons y ys =>
      simp only [ltChars] at h ⊢
      by_cases h1 : x < y
      · rw [if_neg (lt_asymm h1), if_pos h1]
      · by_cases h2 : y < x
        · rw [if_neg h1, if_pos h2] at h
          simp at h
        · rw [if_neg h1, if_neg h2] at h
          rw [if_neg h2, if_neg h1]
          exact ih ys h

theorem ltChars_trans_neg : ∀ a b c, ltChars a b = false →
    ltChars b c = false → ltChars a c = false := by
  intro a
  induction a with
  | nil =>
    intro b c h1 h2
    cases b with
    | nil => exact h2
    | cons y ys => simp [ltChars] at h1
  | cons x xs ih =>
    intro b c h1 h2
    cases b with
    | nil =>
      cases c with
      | nil => rfl
      | cons z zs => simp [ltChars] at h2
    | cons y ys =>
      cases c with
      | nil => rfl
      | cons z zs =>
        simp only [ltChars] at h1 h2 ⊢
        by_cases hxy : x < y
        · rw [if_pos hxy] at h1
          exact absurd h1 (by simp)
        · by_cases hyz : y < z
          · rw [if_pos hyz] at h2
            exact absurd h2 (by simp)
          · by_cases hyx : y < x
            · have hzx : z < x := lt_of_le_of_lt (not_lt.mp hyz) hyx
              rw [if_neg (lt_asymm hzx), if_pos hzx]
            · have hxy2 : x = y := le_antisymm (not_lt.mp hyx) (not_lt.mp hxy)
              subst hxy2
              rw [if_neg hxy, if_neg hyx] at h1
              by_cases hzx : z < x
              · rw [if_neg (lt_asymm hzx), if_pos hzx]
              · have hxz : x = z :=
                  le_antisymm (not_lt.mp hzx) (not_lt.mp hyz)
                subst hxz
                rw [if_neg hyz, if_neg hzx] at h2
                rw [if_neg hyz, if_neg hzx]
                exact ih ys zs h1 h2

/-- One plan artifact of a workflow run: its name and the plan parsed from
its downloaded `plan.json`. -/
structure ArtifactInfo where
  name : String
  plan : Plan
deriving DecidableEq, Repr

/-- The suffix filter of src/plan-integration.ts lines 217-221. -/
def planSuffix (identifier : String) : String :=
  (if identifier ≠ "" then "__" else "") ++ identifier ++ "__plan"

/-- The artifacts whose name ends with the plan suffix. -/
def matchedArtifacts (identifier : String) (artifacts : List ArtifactInfo) :
    List ArtifactInfo :=
  artifacts.filter (fun a => jsEndsWith a.name (planSuffix identifier))

/-- Stable insertion for the descending-by-name sort of the comparator at
src/plan-integration.ts lines 222-230. -/
def insertDescByName (a : ArtifactInfo) :
    List ArtifactInfo → List ArtifactInfo
  | [] => [a]
  | b :: bs =>
    if jsLtString a.name b.name then b :: insertDescByName a bs
    else a :: b :: bs

/-- Stable sort in reverse lexicographic name order, the result of
`Array.prototype.sort` with the source's comparator. -/
def sortDescByName : List ArtifactInfo → List ArtifactInfo
  | [] => []
  | a :: as => insertDescByName a (sortDescByName as)

/-- The working-directory acceptance test of src/plan-integration.ts lines
244-254: a plan is accepted when its `working_directory` is `.`, or the
normalized requested directory equals the normalized plan directory, or
starts with it followed by a slash. -/
def acceptsDir (workingDirInput : String) (p : Plan) : Bool :=
  p.working_directory = "." ||
  normalizePath workingDirInput = normalizePath p.working_directory ||
  jsStartsWith (normalizePath workingDirInput)
    (normalizePath p.working_directory ++ "/")

/-- src/plan-integration.ts lines 205-257: `getPlan` filters artifacts by
the plan suffix, sorts them in reverse lexicographic name order, and returns
the plan of the first artifact whose downloaded plan passes the
working-directory test; it throws when none does. -/
def getPlan (identifier workingDirInput : String)
    (artifacts : List ArtifactInfo) : Except String Plan :=
  match (sortDescByName (matchedArtifacts identifier artifacts)).find?
      (fun a => acceptsDir workingDirInput a.plan) with
  | some a => .ok a.plan
  | none => .error "cannot find plan artifact for workflow run"

theorem mem_insertDescByName {x a : ArtifactInfo} :
    ∀ {l : List ArtifactInfo}, x ∈ insertDescByName a l ↔ x = a ∨ x ∈ l := by
  intro l
  induction l with
  | nil => simp [insertDescByName]
  | cons b bs ih =>
    unfold insertDescByName
    by_cases h : jsLtString a.name b.name
    · rw [if_pos h]
      simp only [List.mem_cons, ih]
      tauto
    · rw [if_neg h]
      simp only [List.mem_cons]

theorem mem_sortDescByName {x : ArtifactInfo} :
    ∀ {l : List ArtifactInfo}, x ∈ sortDescByName l ↔ x ∈ l := by
  intro l
  induction l with
  | nil => simp [sortDescByName]
  | cons a as ih =>
    unfold sortDescByName
    rw [mem_insertDescByName]
    simp [ih]

theorem pairwise_insertDescByName {a : ArtifactInfo} :
    ∀ {l : List ArtifactInfo},
      l.Pairwise (fun x y => jsLtString x.name y.name = false) →
      (insertDescByName a l).Pairwise
        (fun x y => jsLtString x.name y.name = false) := by
  intro l
  induction l with
  | nil => intro _; simp [insertDescByName]
  | cons b bs ih =>
    intro h
    rw [List.pairwise_cons] at h
    unfold insertDescByName
    by_cases hab : jsLtString a.name b.name
    · rw [if_pos hab]
      rw [List.pairwise_cons]
      constructor
      · intro y hy
        rcases mem_insertDescByName.mp hy with rfl | hy2
        · exact ltChars_asymm _ _ hab
        · exact h.1 y hy2
      · exact ih h.2
    · rw [if_neg hab]
      rw [List.pairwise_cons]
      constructor
      · intro y hy
        rcases List.mem_cons.mp hy with rfl | hy2
        · exact Bool.eq_false_iff.mpr hab
        · exact ltChars_trans_neg _ _ _ (Bool.eq_false_iff.mpr hab) (h.1 y hy2)
      · rw [List.pairwise_cons]
        exact h

theorem pairwise_sortDescByName (l : List ArtifactInfo) :
    (sortDescByName l).Pairwise
      (fun x y => jsLtString x.name y.name = false) := by
  induction l with
  | nil => simp [sortDescByName]
  | cons a as ih => exact pairwise_insertDescByName ih

theorem find_max_of_sorted {q : ArtifactInfo → Bool} {c : ArtifactInfo} :
    ∀ {l : List ArtifactInfo},
      l.Pairwise (fun x y => jsLtString x.name y.name = false) →
      l.find? q = some c →
      ∀ b ∈ l, q b = true → jsLtString c.name b.name = false := by
  intro l
  induction l with
  | nil =>
    intro _ hf
    simp at hf
  | cons x xs ih =>
    intro hp hf b hb hq
    rw [List.pairwise_cons] at hp
    by_cases hx : q x
    · rw [List.find?_cons_of_pos _ hx] at hf
      injection hf with hf
      subst hf
      rcases List.mem_cons.mp hb with rfl | hb2
      · exact ltChars_irrefl _
      · exact hp.1 b hb2
    · rw [List.find?_cons_of_neg _ hx] at hf
      rcases List.mem_cons.mp hb with rfl | hb2
      · rw [hq] at hx
        exact absurd rfl hx
      · exact ih hp.2 hf b hb2 hq

/-- C4: when more than one artifact name matches the plan-name suffix
filter, `getPlan` returns the plan of an acceptable matching artifact whose
name is greatest in the JavaScript string order among all acceptable
matching artifacts (reverse lexicographic selection). -/
theorem C4_getPlan_reverse_lex (identifier workingDirInput : String)
    (artifacts : List ArtifactInfo) (a : ArtifactInfo)
    (_hmulti : 1 < (matchedArtifacts identifier artifacts).length)
    (hmem : a ∈ matchedArtifacts identifier artifacts)
    (hacc : acceptsDir workingDirInput a.plan = true) :
    ∃ c, getPlan identifier workingDirInput artifacts = .ok c.plan
      ∧ c ∈ matchedArtifacts identifier artifacts
      ∧ acceptsDir workingDirInput c.plan = true
      ∧ ∀ b ∈ matchedArtifacts identifier artifacts,
          acceptsDir workingDirInput b.plan = true →
          jsLtString c.name b.name = false := by
  have hmem2 : a ∈ sortDescByName (matchedArtifacts identifier artifacts) :=
    mem_sortDescByName.mpr hmem
  cases hfind : (sortDescByName (matchedArtifacts identifier artifacts)).find?
      (fun x => acceptsDir workingDirInput x.plan) with
  | none => exact absurd hacc (List.find?_eq_none.mp hfind a hmem2)
  | some c =>
    refine ⟨c, ?_, ?_, ?_, ?_⟩
    · unfold getPlan
      rw [hfind]
    · exact mem_sortDescByName.mp (List.mem_of_find?_eq_some hfind)
    · have h3 := List.find?_some hfind
      exact h3
    · intro b hb hqb
      exact find_max_of_sorted (pairwise_sortDescByName _) hfind b
        (mem_sortDescByName.mpr hb) hqb

/-- Two plan artifacts with timestamp-prefixed names, both acceptable. -/
def planArtifactsFixture : List ArtifactInfo :=
  [{ name := "2024-01-01__plan", plan := { working_directory := ".", build := [] } },
   { name := "2025-01-01__plan", plan := { working_directory := ".", build := [] } }]

theorem C4_getPlan_reverse_lex_witness :
    ∃ c, getPlan "" "." planArtifactsFixture = .ok c.plan
      ∧ c ∈ matchedArtifacts "" planArtifactsFixture
      ∧ acceptsDir "." c.plan = true
      ∧ ∀ b ∈ matchedArtifacts "" planArtifactsFixture,
          acceptsDir "." b.plan = true →
          jsLtString c.name b.name = false :=
  C4_getPlan_reverse_lex "" "." planArtifactsFixture
    { name := "2024-01-01__plan",
      plan := { working_directory := ".", build := [] } }
    (by decide) (by decide) (by decide)

/-! ## C10: working-directory acceptance of downloaded plans -/

theorem startsWithChars_iff :
    ∀ (pre l : List Char), startsWithChars pre l = true ↔ ∃ t, l = pre ++ t := by
  intro pre
  induction pre with
  | nil =>
    intro l
    simp [startsWithChars]
  | cons a as ih =>
    intro l
    cases l with
    | nil => simp [startsWithChars]
    | cons b bs =>
      simp only [startsWithChars, Bool.and_eq_true, decide_eq_true_eq, ih,
        List.cons_append, List.cons.injEq]
      constructor
      · rintro ⟨rfl, t, rfl⟩
        exact ⟨t, rfl, rfl⟩
      · rintro ⟨t, rfl, rfl⟩
        exact ⟨rfl, t, rfl⟩

theorem jsStartsWith_iff (s pre : String) :
    jsStartsWith s pre = true ↔ ∃ rest : String, s = pre ++ rest := by
  unfold jsStartsWith
  rw [startsWithChars_iff]
  constructor
  · rintro ⟨t, ht⟩
    exact ⟨⟨t⟩, String.ext ht⟩
  · rintro ⟨rest, rfl⟩
    exact ⟨rest.data, rfl⟩

/-- C10: a downloaded plan whose `working_directory` is the string `.` is
accepted for every requested working directory; otherwise it is accepted
exactly when the normalized requested directory equals the plan's normalized
`working_directory` or extends it by a slash and a further path remainder. -/
theorem C10_accepts_dir_iff (workingDirInput : String) (p : Plan) :
    acceptsDir workingDirInput p = true ↔
      (p.working_directory = "."
        ∨ normalizePath workingDirInput = normalizePath p.working_directory
        ∨ ∃ rest : String,
            normalizePath workingDirInput =
              normalizePath p.working_directory ++ "/" ++ rest) := by
  unfold acceptsDir
  rw [Bool.or_eq_true, Bool.or_eq_true, jsStartsWith_iff]
  simp only [decide_eq_true_eq]
  exact or_assoc

/-! ## Builder cache key (src/build.ts lines 229-259)

Dates are modelled as whole days since 1970-01-01 in UTC (the runner's
timezone). `weekNumber` mutates only a copy of its argument, and all the
JavaScript `Date` arithmetic it performs preserves the time of day, so the
millisecond difference `firstThursday - date.valueOf()` is an exact multiple
of a day and the computation only depends on the day number. -/

/-- JavaScript `getDay` (0 = Sunday) of a day number; 1970-01-01 was a
Thursday. -/
def dow (d : Int) : Int :=
  (d + 4) % 7

/-- Day number of a proleptic Gregorian calendar date (civil-from-days
algorithm, as implemented by the JavaScript Date setters). -/
def daysFromCivil (y m d : Int) : Int :=
  let y2 := if m ≤ 2 then y - 1 else y
  let era := (if 0 ≤ y2 then y2 else y2 - 399) / 400
  let yoe := y2 - era * 400
  let mp := (m + 9) % 12
  let doy := (153 * mp + 2) / 5 + d - 1
  let doe := yoe * 365 + yoe / 4 - yoe / 100 + doy
  era * 146097 + doe - 719468

/-- JavaScript `getFullYear` of a day number (days-to-civil algorithm). -/
def yearOf (z : Int) : Int :=
  let z2 := z + 719468
  let era := (if 0 ≤ z2 then z2 else z2 - 146096) / 146097
  let doe := z2 - era * 146097
  let yoe := (doe - doe / 1460 + doe / 36524 - doe / 146096) / 365
  let y := yoe + era * 400
  let doy := doe - (365 * yoe + yoe / 4 - yoe / 100)
  let mp := (5 * doy + 2) / 153
  let m := mp + (if mp < 10 then 3 else -9)
  if m ≤ 2 then y + 1 else y

/-- Ceiling division on integers (`Math.ceil` of an exact quotient). -/
def ceilDivInt (a b : Int) : Int :=
  -((-a).fdiv b)

/-- src/build.ts lines 229-239: `weekNumber`, the ISO-8601 week number of
the week containing `d` (computed in days instead of milliseconds; the two
agree because the time-of-day component cancels). -/
def weekNumber (d : Int) : Int :=
  let dayNumber := (dow d + 6) % 7
  let thursday := d - dayNumber + 3
  let y := yearOf thursday
  let jan1 := daysFromCivil y 1 1
  let firstThursday :=
    if dow jan1 = 4 then jan1
    else daysFromCivil y 1 (1 + ((4 - dow jan1 + 7) % 7))
  1 + ceilDivInt (thursday - firstThursday) 7

/-- The Thursday of the ISO week containing `d` (the quantity the code's own
week computation is keyed on): two dates lie in the same ISO week exactly
when these agree. -/
def isoThursday (d : Int) : Int :=
  d - ((dow d + 6) % 7) + 3

/-- `String(n).padStart(2, '0')`. -/
def pad2 (n : Int) : String :=
  let s := toString n
  if s.length < 2 then "0" ++ s else s

/-- src/build.ts line 253: the weekly usage marker
`date.getFullYear() ++ "-W" ++ pad2 (weekNumber date)`. Note that the year
is the calendar year of the date, not the ISO week-year of its week. -/
def usedByMarker (d : Int) : String :=
  toString (yearOf d) ++ "-W" ++ pad2 (weekNumber d)

/-- The date-independent part of the cache key: the joined pseudo-URL path
followed by the sorted query parameters `arch` and `hash` and the `used-by`
key (URL percent-encoding is the identity on the architecture names, the
hexadecimal hashes and the markers that occur). -/
def cacheKeyStem (sourceFile arch hash : String) : String :=
  pathJoin "operator-workflows/build/rock" sourceFile
    ++ "?arch=" ++ arch ++ "&hash=" ++ hash ++ "&used-by="

/-- src/build.ts lines 241-259: `generateRockCacheKey` for a build entry
with the given source file, on a runner with the given architecture, with
the given source-tree content hash, at the given date. The query parameters
appear in sorted key order: arch, hash, used-by, version. -/
def generateRockCacheKey (sourceFile arch hash : String) (d : Int) : String :=
  cacheKeyStem sourceFile arch hash ++ usedByMarker d ++ "&version=1"

theorem string_append_left_inj {a b c : String} (h : a ++ c = b ++ c) :
    a = b := by
  have h2 : a.data ++ c.data = b.data ++ c.data := congrArg String.data h
  exact congrArg String.mk (List.append_cancel_right h2)

/-- C5 counterexample: 2025-12-29 (a Monday) and 2026-01-01 (a Thursday) lie
in the same ISO week (their week-Thursdays coincide), and the content hash
and architecture are held fixed, yet the cache keys differ: the marker year
is the calendar year, so the keys carry `2025-W01` and `2026-W01`. -/
theorem C5_cache_key_counterexample :
    isoThursday (daysFromCivil 2025 12 29) =
      isoThursday (daysFromCivil 2026 1 1)
    ∧ usedByMarker (daysFromCivil 2025 12 29) = "2025-W01"
    ∧ usedByMarker (daysFromCivil 2026 1 1) = "2026-W01"
    ∧ generateRockCacheKey "rockcraft.yaml" "x64" "abc123"
        (daysFromCivil 2025 12 29) ≠
      generateRockCacheKey "rockcraft.yaml" "x64" "abc123"
        (daysFromCivil 2026 1 1) := by
  refine ⟨by decide, by decide, by decide, by decide⟩

/-- C5 (amended): for a fixed build entry, architecture and source-tree
content hash, two dates yield equal cache keys exactly when they yield equal
usage markers (calendar year plus ISO week number, which near a year
boundary can differ inside one ISO week); and every key is the fixed stem
followed by the marker and the version component, so two keys for the same
entry differ at most in the marker component. -/
theorem C5_cache_key_marker (sourceFile arch hash : String) (d1 d2 : Int) :
    (generateRockCacheKey sourceFile arch hash d1 =
        generateRockCacheKey sourceFile arch hash d2 ↔
      usedByMarker d1 = usedByMarker d2)
    ∧ generateRockCacheKey sourceFile arch hash d1 =
        cacheKeyStem sourceFile arch hash ++ usedByMarker d1
          ++ "&version=1" := by
  constructor
  · constructor
    · intro h
      have h2 : cacheKeyStem sourceFile arch hash ++ usedByMarker d1
            ++ "&version=1" =
          cacheKeyStem sourceFile arch hash ++ usedByMarker d2
            ++ "&version=1" := h
      exact string_append_right_inj (string_append_left_inj h2)
    · intro h
      unfold generateRockCacheKey
      rw [h]
  · rfl

/-! ## Builder manifests (src/build.ts) -/

/-- The JSON manifest written next to each build output
(`{ name, files?, images? }`, src/model spec section 3). -/
structure Manifest where
  name : String
  files : Option (List String)
  images : Option (List String)
deriving DecidableEq, Repr

/-- src/build.ts lines 68-76: the manifest written by `buildCharm`. -/
def charmManifest (plan : BuildPlan) (charmFiles : List String) : Manifest :=
  { name := plan.name, files := some (charmFiles.map pathBasename),
    images := none }

/-- src/build.ts lines 103-111: the manifest written by
`buildFileResource`. -/
def fileResourceManifest (plan : BuildPlan) (resourceFiles : List String) :
    Manifest :=
  { name := plan.name, files := some (resourceFiles.map pathBasename),
    images := none }

/-- src/build.ts lines 140-167: the manifest written by `buildDockerImage`:
a saved tarball under output type `file`, a pushed registry reference under
output type `registry`. -/
def dockerImageManifest (plan : BuildPlan) (tag owner : String) : Manifest :=
  match plan.output_type with
  | .file =>
    { name := plan.name, files := some [plan.name ++ "-" ++ tag ++ ".tar"],
      images := none }
  | .registry =>
    { name := plan.name, files := none,
      images := some ["ghcr.io/" ++ owner ++ "/" ++ plan.name ++ ":" ++ tag] }

/-- The `.replace(/\.rock$/, '')` of src/build.ts line 374. -/
def stripRockSuffix (s : String) : String :=
  if jsEndsWith s ".rock" then ⟨s.data.take (s.data.length - 5)⟩ else s

/-- src/build.ts lines 350-401: the manifest written by `buildRock`: the
produced `.rock` files under output type `file`, the pushed registry
references tagged with the git tree id under output type `registry`. -/
def rockManifest (plan : BuildPlan) (rocks : List String)
    (tree owner : String) : Manifest :=
  match plan.output_type with
  | .file =>
    { name := plan.name, files := some (rocks.map pathBasename),
      images := none }
  | .registry =>
    { name := plan.name, files := none,
      images := some (rocks.map (fun f =>
        "ghcr.io/" ++ owner ++ "/" ++ plan.name ++ ":" ++ tree ++ "-"
          ++ stripRockSuffix ⟨(pathBasename f).data.drop plan.name.data.length⟩)) }

/-- src/build.ts lines 411-446: the manifest written by the build action for
one build entry, following the dispatch on the entry type in `run`.
`producedFiles` are the files collected by the glob after the packaging tool
ran; `tree` is the git tree id used as image tag; `owner` the repository
owner. -/
def builtManifest (plan : BuildPlan) (producedFiles : List String)
    (tree owner : String) : Manifest :=
  match plan.type with
  | .charm => charmManifest plan producedFiles
  | .dockerImage => dockerImageManifest plan tree owner
  | .rock => rockManifest plan producedFiles tree owner
  | .file => fileResourceManifest plan producedFiles

/-- C7: every manifest the Builder writes contains exactly one of
`files`/`images`, with the mapping determined by build type and output
discipline: charm and file builds always produce `files`; rock and
docker-image builds produce `files` when the output type is `file` and
`images` when it is `registry`. -/
theorem C7_manifest_files_images (plan : BuildPlan)
    (producedFiles : List String) (tree owner : String) :
    (((builtManifest plan producedFiles tree owner).files.isSome = true ∧
        (builtManifest plan producedFiles tree owner).images = none) ∨
      ((builtManifest plan producedFiles tree owner).files = none ∧
        (builtManifest plan producedFiles tree owner).images.isSome = true))
    ∧ ((plan.type = .charm ∨ plan.type = .file) →
        (builtManifest plan producedFiles tree owner).files.isSome = true ∧
        (builtManifest plan producedFiles tree owner).images = none)
    ∧ ((plan.type = .rock ∨ plan.type = .dockerImage) →
        (plan.output_type = .file →
          (builtManifest plan producedFiles tree owner).files.isSome = true ∧
          (builtManifest plan producedFiles tree owner).images = none)
        ∧ (plan.output_type = .registry →
          (builtManifest plan producedFiles tree owner).files = none ∧
          (builtManifest plan producedFiles tree owner).images.isSome = true)) := by
  obtain ⟨t, n, sf, sd, bt, ot, out⟩ := plan
  cases t <;> cases ot <;>
    simp [builtManifest, charmManifest, fileResourceManifest,
      dockerImageManifest, rockManifest]

/-- A registry-typed rock build entry used to instantiate C7. -/
def rockRegistryPlan : BuildPlan :=
  { type := .rock, name := "app", source_file := "rockcraft.yaml",
    source_directory := ".", build_target := none, output_type := .registry,
    output := "rock-out" }

theorem C7_manifest_files_images_witness :
    (builtManifest rockRegistryPlan [] "tree" "owner").files = none ∧
    (builtManifest rockRegistryPlan [] "tree" "owner").images.isSome = true :=
  ((C7_manifest_files_images rockRegistryPlan [] "tree" "owner").2.2
    (Or.inl rfl)).2 rfl

/-! ## Publisher (src/publish.ts)

`getCharmResources` shells out to `charmcraft expand-extensions`; its result
(the declared image-typed and file-typed resource names) is passed in as the
`imageResources`/`fileResources` inputs. Downloaded artifact manifests are
threaded as a function from artifact output name to manifest. -/

/-- JavaScript `Map.prototype.set`: replace the value of an existing key or
append a new binding, keeping keys unique. -/
def mapSet (m : List (String × String)) (k v : String) :
    List (String × String) :=
  match m with
  | [] => [(k, v)]
  | (k2, v2) :: rest =>
    if k2 = k then (k, v) :: rest else (k2, v2) :: mapSet rest k v

/-- JavaScript object property access (`mapping[name]`): `none` models
`undefined`. -/
def lookupStr (m : List (String × String)) (k : String) : Option String :=
  match m with
  | [] => none
  | (k2, v) :: rest => if k2 = k then some v else lookupStr rest k

/-- Loop body of `Publish.getFiles` (src/publish.ts lines 91-130): for each
`file`-typed build whose mapped resource name is required, the downloaded
manifest must hold exactly one file, which is recorded for upload; builds
with no mapping entry (`undefined`) or an unrequired name are skipped. -/
def getFilesGo (resources : List String) (mapping : List (String × String))
    (manifests : String → Manifest) :
    List BuildPlan → List (String × String) →
      Except String (List (String × String))
  | [], upload => .ok upload
  | b :: bs, upload =>
    if b.type = .file then
      match lookupStr mapping b.name with
      | none => getFilesGo resources mapping manifests bs upload
      | some resourceName =>
        if resourceName ∈ resources then
          match (manifests b.output).files with
          | none => .error "TypeError: manifest files are undefined"
          | some [file] =>
            getFilesGo resources mapping manifests bs
              (mapSet upload resourceName file)
          | some _ =>
            .error ("file resource " ++ b.name
              ++ " contain multiple candidates")
        else getFilesGo resources mapping manifests bs upload
    else getFilesGo resources mapping manifests bs upload

/-- src/publish.ts lines 84-132: `Publish.getFiles`. Note: no final
comparison of the collected upload count against the required count. -/
def getFiles (resources : List String) (mapping : List (String × String))
    (manifests : String → Manifest) (plan : Plan) :
    Except String (List (String × String)) :=
  if resources.length = 0 then .ok []
  else getFilesGo resources mapping manifests plan.build []

/-- Loop body of `Publish.getImages` (src/publish.ts lines 142-222): for
each non-charm non-file build whose resource name (mapped, or the build name
with `-image` appended) is required, the downloaded manifest must hold
exactly one image (registry outputs) or one file (file outputs), recorded
for upload. -/
def getImagesGo (resources : List String) (mapping : List (String × String))
    (manifests : String → Manifest) :
    List BuildPlan → List (String × String) →
      Except String (List (String × String))
  | [], upload => .ok upload
  | b :: bs, upload =>
    if b.type = .charm ∨ b.type = .file then
      getImagesGo resources mapping manifests bs upload
    else
      let resourceName :=
        match lookupStr mapping b.name with
        | some r => r
        | none => b.name ++ "-image"
      if resourceName ∈ resources then
        match b.output_type with
        | .registry =>
          match (manifests b.output).images with
          | none => .error "TypeError: manifest images are undefined"
          | some [image] =>
            getImagesGo resources mapping manifests bs
              (mapSet upload resourceName image)
          | some _ =>
            .error ("image resource " ++ b.name
              ++ " contain multiple candidates")
        | .file =>
          match (manifests b.output).files with
          | none => .error "TypeError: manifest files are undefined"
          | some [file] =>
            getImagesGo resources mapping manifests bs
              (mapSet upload resourceName (b.name ++ ":" ++ file))
          | some _ =>
            .error ("image resource " ++ b.name
              ++ " contain multiple candidates")
      else getImagesGo resources mapping manifests bs upload

/-- src/publish.ts lines 134-228: `Publish.getImages`, including the final
check that the collected upload count equals the required image-resource
count (lines 223-227). -/
def getImages (resources : List String) (mapping : List (String × String))
    (manifests : String → Manifest) (plan : Plan) :
    Except String (List (String × String)) :=
  if resources.length = 0 then .ok []
  else
    match getImagesGo resources mapping manifests plan.build [] with
    | .error e => .error e
    | .ok upload =>
      if upload.length ≠ resources.length then
        .error "cannot find required resources"
      else .ok upload

/-- src/publish.ts lines 286-334: the resolution phase of `Publish.run`:
`getImages` then `getFiles` complete (or throw) before any
`charmcraft upload-resource` invocation happens. -/
def publishResolve (imageResources fileResources : List String)
    (mapping : List (String × String)) (manifests : String → Manifest)
    (plan : Plan) :
    Except String (List (String × String) × List (String × String)) :=
  match getImages imageResources mapping manifests plan with
  | .error e => .error e
  | .ok imgs =>
    match getFiles fileResources mapping manifests plan with
    | .error e => .error e
    | .ok fls => .ok (imgs, fls)

/-- C2 counterexample: with no required image resources, one required file
resource and no uploadable candidate for it (R = 1, 0 candidates),
resolution succeeds with zero uploads instead of throwing: `getFiles` has no
count check, so publish would proceed and partially publish. -/
theorem C2_publish_counterexample :
    publishResolve [] ["data"] []
        (fun _ => { name := "", files := none, images := none })
        { working_directory := ".", build := [] } =
      Except.ok ([], [])
    ∧ (0 : Nat) ≠ ([] : List String).length + (["data"] : List String).length := by
  refine ⟨by decide, by decide⟩

theorem getImages_ok_length {resources : List String}
    {mapping : List (String × String)} {manifests : String → Manifest}
    {plan : Plan} {u : List (String × String)}
    (h : getImages resources mapping manifests plan = .ok u) :
    u.length = resources.length := by
  unfold getImages at h
  by_cases h0 : resources.length = 0
  · rw [if_pos h0] at h
    injection h with h
    subst h
    simpa using h0.symm
  · rw [if_neg h0] at h
    cases hg : getImagesGo resources mapping manifests plan.build [] with
    | error e =>
      rw [hg] at h
      exact Except.noConfusion h
    | ok upload =>
      rw [hg] at h
      dsimp only [] at h
      by_cases hl : upload.length ≠ resources.length
      · rw [if_pos hl] at h
        exact Except.noConfusion h
      · rw [if_neg hl] at h
        injection h with h
        subst h
        exact not_ne_iff.mp hl

/-- C2 (amended): whenever the Publisher's resolution phase succeeds (so
before any resource upload is attempted), the number of resolved image
uploads equals the number of required image-typed resources — a shortfall
among image resources throws in `getImages` before any upload; required
file-typed resources have no such count check and can be silently skipped. -/
theorem C2_publish_image_count (imageResources fileResources : List String)
    (mapping : List (String × String)) (manifests : String → Manifest)
    (plan : Plan) (imgs fls : List (String × String))
    (h : publishResolve imageResources fileResources mapping manifests plan =
      .ok (imgs, fls)) :
    imgs.length = imageResources.length := by
  unfold publishResolve at h
  cases hi : getImages imageResources mapping manifests plan with
  | error e =>
    rw [hi] at h
    exact Except.noConfusion h
  | ok u =>
    rw [hi] at h
    cases hf : getFiles fileResources mapping manifests plan with
    | error e =>
      rw [hf] at h
      exact Except.noConfusion h
    | ok v =>
      rw [hf] at h
      injection h with h
      have h2 : u = imgs := congrArg Prod.fst h
      rw [← h2]
      exact getImages_ok_length hi

/-- Fixture for the C2 witness: one registry rock build whose manifest holds
one image. -/
def publishManifestsFixture : String → Manifest := fun o =>
  if o = "rock-out" then { name := "app", files := none, images := some ["img1"] }
  else { name := "", files := none, images := none }

/-- Fixture plan for the C2 witness. -/
def publishPlanFixture : Plan :=
  { working_directory := ".", build := [rockRegistryPlan] }

theorem C2_publish_image_count_witness :
    ([("app-image", "img1")] : List (String × String)).length =
      (["app-image"] : List String).length :=
  C2_publish_image_count ["app-image"] [] [] publishManifestsFixture
    publishPlanFixture [("app-image", "img1")] [] (by decide)
